import Mathlib

/-!
Verification development for the agentic conversation engine of the
ida-chat-cpp repository: a shallow embedding in Lean 4 of the SSE
streaming parser (src/api/streaming_parser.cpp), the protocol types and
their JSON (de)serialization (src/api/claude_types.cpp,
include/ida_chat/core/types.hpp), the script-directive extraction, the
token-usage / cost accounting of the API client
(src/api/claude_client.cpp), and the agent turn loop of the chat core
(src/core/chat_core.cpp), together with theorems settling the frozen
claims about this code.
-/

namespace IdaChat

/-! ## JSON values

The repository uses the external nlohmann::json library.  We model JSON
values as an inductive type; objects keep insertion order (key order is
irrelevant to every claim below, which only concern key presence). -/

/-- Model of a JSON value (nlohmann::json).  Numbers are modelled as
rationals, which covers the integer token counts and the double-typed
fields appearing in the wire schema. -/
inductive Json where
  | null : Json
  | bool : Bool → Json
  | num : ℚ → Json
  | str : String → Json
  | arr : List Json → Json
  | obj : List (String × Json) → Json

/-- Lookup of a key in a JSON object; `none` on non-objects and missing
keys (mirrors nlohmann object member access only where the source guards
it with `contains`). -/
def Json.lookupKey : Json → String → Option Json
  | .obj kvs, k => (kvs.find? (fun kv => kv.1 == k)).map (·.2)
  | _, _ => none

/-- Model of nlohmann `j.contains(key)`: false on non-objects. -/
def Json.containsKey (j : Json) (k : String) : Bool :=
  (j.lookupKey k).isSome

/-- Model of nlohmann `j.value(key, default)` at type std::string.
`none` models a thrown type_error (key present with a non-string value,
or `j` not an object), which the source catches and swallows. -/
def Json.valueStr (j : Json) (k : String) (d : String) : Option String :=
  match j with
  | .obj kvs =>
    match (Json.obj kvs).lookupKey k with
    | none => some d
    | some (.str s) => some s
    | some _ => none
  | _ => none

/-- Model of nlohmann `j.value(key, default)` at integer type.  A
non-integer JSON number is truncated (C++ integral conversion); `none`
models a thrown type_error. -/
def Json.valueInt (j : Json) (k : String) (d : Int) : Option Int :=
  match j with
  | .obj kvs =>
    match (Json.obj kvs).lookupKey k with
    | none => some d
    | some (.num q) => some ⌊q⌋
    | some _ => none
  | _ => none

/-- Model of nlohmann `j.value(key, default)` at type bool; `none`
models a thrown type_error. -/
def Json.valueBool (j : Json) (k : String) (d : Bool) : Option Bool :=
  match j with
  | .obj kvs =>
    match (Json.obj kvs).lookupKey k with
    | none => some d
    | some (.bool b) => some b
    | some _ => none
  | _ => none

/-! ## Protocol types (include/ida_chat/core/types.hpp,
include/ida_chat/api/claude_types.hpp) -/

/-- TokenUsage (types.hpp): four int64 counters.  The claims never reach
int64 overflow territory (and signed overflow is undefined in C++), so
the fields are modelled as unbounded integers. -/
structure TokenUsage where
  input_tokens : Int := 0
  output_tokens : Int := 0
  cache_read_tokens : Int := 0
  cache_creation_tokens : Int := 0
  deriving DecidableEq, Repr

/-- TokenUsage::operator+= (types.hpp lines 162-168): field-wise
addition. -/
def tokenAdd (u other : TokenUsage) : TokenUsage :=
  { input_tokens := u.input_tokens + other.input_tokens
    output_tokens := u.output_tokens + other.output_tokens
    cache_read_tokens := u.cache_read_tokens + other.cache_read_tokens
    cache_creation_tokens := u.cache_creation_tokens + other.cache_creation_tokens }

/-- MessageRole (claude_types.hpp). -/
inductive MessageRole where
  | user : MessageRole
  | assistant : MessageRole
  deriving DecidableEq, Repr

/-- ContentBlock (claude_types.hpp): std::variant of TextContent,
ToolUseContent, ToolResultContent, ThinkingContent. -/
inductive ContentBlock where
  | text : String → ContentBlock
  | toolUse : String → String → Json → ContentBlock
  | toolResult : String → String → Bool → ContentBlock
  | thinking : String → ContentBlock

/-- StopReason (claude_types.hpp). -/
inductive StopReason where
  | endTurn : StopReason
  | maxTokens : StopReason
  | toolUse : StopReason
  | stopSequence : StopReason
  deriving DecidableEq, Repr

/-- stop_reason_from_str (claude_types.hpp): unknown strings default to
EndTurn. -/
def stop_reason_from_str (s : String) : StopReason :=
  if s == "end_turn" then .endTurn
  else if s == "max_tokens" then .maxTokens
  else if s == "tool_use" then .toolUse
  else if s == "stop_sequence" then .stopSequence
  else .endTurn

/-- CreateMessageResponse (claude_types.hpp). -/
structure CreateMessageResponse where
  id : String := ""
  model : String := ""
  stop_reason : Option StopReason := none
  content : List ContentBlock := []
  usage : TokenUsage := {}

/-- CreateMessageResponse::get_text (claude_types.hpp lines 257-266):
concatenation of the Text blocks joined with a newline between
accumulated pieces. -/
def CreateMessageResponse.get_text (r : CreateMessageResponse) : String :=
  r.content.foldl
    (fun result block =>
      match block with
      | .text t => (if result ≠ "" then result ++ "\n" else result) ++ t
      | _ => result)
    ""

/-- StreamEventType (claude_types.hpp). -/
inductive StreamEventType where
  | messageStart : StreamEventType
  | contentBlockStart : StreamEventType
  | contentBlockDelta : StreamEventType
  | contentBlockStop : StreamEventType
  | messageDelta : StreamEventType
  | messageStop : StreamEventType
  | ping : StreamEventType
  | error : StreamEventType
  deriving DecidableEq, Repr

/-- stream_event_type_from_str (claude_types.hpp lines 312-321): unknown
strings map to Error. -/
def stream_event_type_from_str (s : String) : StreamEventType :=
  if s == "message_start" then .messageStart
  else if s == "content_block_start" then .contentBlockStart
  else if s == "content_block_delta" then .contentBlockDelta
  else if s == "content_block_stop" then .contentBlockStop
  else if s == "message_delta" then .messageDelta
  else if s == "message_stop" then .messageStop
  else if s == "ping" then .ping
  else .error

/-- ContentBlockDelta payload struct (claude_types.hpp lines 326-332). -/
structure DeltaPayload where
  index : Int := 0
  type : String := ""
  text : String := ""
  partial_json : String := ""
  thinking : String := ""
  deriving DecidableEq, Repr

/-- StreamEvent (claude_types.hpp lines 337-346). -/
structure StreamEvent where
  type : StreamEventType
  message : Option CreateMessageResponse := none
  content_block : Option ContentBlock := none
  delta : Option DeltaPayload := none
  stop_reason : Option StopReason := none
  usage : Option TokenUsage := none
  error : Option String := none
  content_block_index : Int := 0

/-! ## Deserialization (src/api/claude_types.cpp, from_json overloads)

Each translation returns `Option`: `none` models an exception escaping
from the C++ from_json call (nlohmann type errors), which the one caller
in the streaming parser catches and swallows. -/

/-- from_json for TokenUsage (claude_types.cpp lines 160-165). -/
def fromJsonTokenUsage (j : Json) : Option TokenUsage := do
  let i ← j.valueInt "input_tokens" 0
  let o ← j.valueInt "output_tokens" 0
  let cr ← j.valueInt "cache_read_input_tokens" 0
  let cc ← j.valueInt "cache_creation_input_tokens" 0
  pure ⟨i, o, cr, cc⟩

/-- from_json for ContentBlock (claude_types.cpp lines 136-158).  The
C++ default-constructs the variant as TextContent{""} and leaves it
unchanged on an unknown type string, so both call sites see `.text ""`
for unknown types. -/
def fromJsonContentBlock (j : Json) : Option ContentBlock := do
  let type ← j.valueStr "type" ""
  if type == "text" then do
    let t ← j.valueStr "text" ""
    pure (.text t)
  else if type == "tool_use" then do
    let id ← j.valueStr "id" ""
    let name ← j.valueStr "name" ""
    let input := if j.containsKey "input" then (j.lookupKey "input").getD .null else .null
    pure (.toolUse id name input)
  else if type == "tool_result" then do
    let tid ← j.valueStr "tool_use_id" ""
    let content ← j.valueStr "content" ""
    let isErr ← j.valueBool "is_error" false
    pure (.toolResult tid content isErr)
  else if type == "thinking" then do
    let t ← j.valueStr "thinking" ""
    pure (.thinking t)
  else
    pure (.text "")

/-- from_json for CreateMessageResponse (claude_types.cpp lines
167-186). -/
def fromJsonResponse (j : Json) : Option CreateMessageResponse := do
  let id ← j.valueStr "id" ""
  let model ← j.valueStr "model" ""
  let stop_reason ←
    match j.lookupKey "stop_reason" with
    | some .null => some none
    | some (.str s) => some (some (stop_reason_from_str s))
    | some _ => none
    | none => some none
  let content ←
    match j.lookupKey "content" with
    | some (.arr blocks) => blocks.mapM fromJsonContentBlock
    | _ => some []
  let usage ←
    match j.lookupKey "usage" with
    | some ju => fromJsonTokenUsage ju
    | none => some {}
  pure { id := id, model := model, stop_reason := stop_reason,
         content := content, usage := usage }

/-- from_json for StreamEvent (claude_types.cpp lines 188-255). -/
def fromJsonStreamEvent (j : Json) : Option StreamEvent := do
  let type_str ← j.valueStr "type" ""
  let t := stream_event_type_from_str type_str
  match t with
  | .messageStart =>
    match j.lookupKey "message" with
    | some jm => do
      let msg ← fromJsonResponse jm
      pure { type := t, message := some msg }
    | none => pure { type := t }
  | .contentBlockStart => do
    let idx ← j.valueInt "index" 0
    match j.lookupKey "content_block" with
    | some jb => do
      let bl ← fromJsonContentBlock jb
      pure { type := t, content_block_index := idx, content_block := some bl }
    | none => pure { type := t, content_block_index := idx }
  | .contentBlockDelta => do
    let idx ← j.valueInt "index" 0
    match j.lookupKey "delta" with
    | some jd => do
      let dtype ← jd.valueStr "type" ""
      let text ← if dtype == "text_delta" then jd.valueStr "text" "" else pure ""
      let pj ← if dtype == "input_json_delta" then jd.valueStr "partial_json" "" else pure ""
      let th ← if dtype == "thinking_delta" then jd.valueStr "thinking" "" else pure ""
      pure { type := t, content_block_index := idx,
             delta := some { index := idx, type := dtype, text := text,
                             partial_json := pj, thinking := th } }
    | none => pure { type := t, content_block_index := idx }
  | .contentBlockStop => do
    let idx ← j.valueInt "index" 0
    pure { type := t, content_block_index := idx }
  | .messageDelta => do
    let stop_reason ←
      match j.lookupKey "delta" with
      | some jd =>
        if jd.containsKey "stop_reason" then
          match jd.lookupKey "stop_reason" with
          | some (.str s) => some (some (stop_reason_from_str s))
          | _ => none
        else some none
      | none => some none
    let usage ←
      match j.lookupKey "usage" with
      | some ju => (fromJsonTokenUsage ju).map some
      | none => some none
    pure { type := t, stop_reason := stop_reason, usage := usage }
  | .error =>
    match j.lookupKey "error" with
    | some je => do
      let msg ← je.valueStr "message" "Unknown error"
      pure { type := t, error := some msg }
    | none => pure { type := t }
  | _ => pure { type := t }

/-! ## Streaming parser (src/api/streaming_parser.cpp)

The parser is parameterized over `parse : List Char → Option Json`,
which stands for the external nlohmann::json::parse (a parse failure or
exception is `none`).  All universal theorems quantify over it; concrete
runs instantiate it with the `jsonParseModel` defined further below. -/

/-- StreamingParser::Impl state (streaming_parser.cpp lines 18-27).  The
`events` field is instrumentation: the trace of events handed to the
callback, one entry per successfully parsed data line. -/
structure ParserCore where
  response : Option CreateMessageResponse := none
  content_blocks : List ContentBlock := []
  partial_jsons : List String := []
  complete : Bool := false
  has_error : Bool := false
  error_message : String := ""
  events : List StreamEvent := []

/-- Cast of the int content_block_index to size_t
(static_cast<size_t>, two's-complement modulo 2^64). -/
def uidx (i : Int) : Nat :=
  (i % (2 : Int) ^ 64).toNat

/-- Whether a content block is the Text variant (std::get_if
succeeding). -/
def ContentBlock.isText : ContentBlock → Bool
  | .text _ => true
  | _ => false

/-- Whether a content block is the Thinking variant. -/
def ContentBlock.isThinking : ContentBlock → Bool
  | .thinking _ => true
  | _ => false

/-- Whether a content block is the ToolUse variant. -/
def ContentBlock.isToolUse : ContentBlock → Bool
  | .toolUse _ _ _ => true
  | _ => false

/-- StreamingParser::Impl::process_event (streaming_parser.cpp lines
66-148).  `parse` is needed only by the ContentBlockStop case, which
runs nlohmann::json::parse over the accumulated tool-input fragments. -/
def process_event (parse : List Char → Option Json) (p : ParserCore)
    (event : StreamEvent) : ParserCore :=
  match event.type with
  | .messageStart =>
    match event.message with
    | some m => { p with response := some { m with content := [] } }
    | none => p
  | .contentBlockStart =>
    let idx := uidx event.content_block_index
    -- while (content_blocks.size() <= idx) push TextContent{""} / ""
    let pad := idx + 1 - p.content_blocks.length
    let blocks := p.content_blocks ++ List.replicate pad (.text "")
    let pjs := p.partial_jsons ++ List.replicate pad ""
    match event.content_block with
    | some cb => { p with content_blocks := blocks.set idx cb, partial_jsons := pjs }
    | none => { p with content_blocks := blocks, partial_jsons := pjs }
  | .contentBlockDelta =>
    match event.delta with
    | some d =>
      let idx := uidx event.content_block_index
      if idx < p.content_blocks.length then
        if d.type == "text_delta" then
          match p.content_blocks.getD idx (.text "") with
          | .text t =>
            { p with content_blocks := p.content_blocks.set idx (.text (t ++ d.text)) }
          | _ => p
        else if d.type == "input_json_delta" then
          { p with partial_jsons :=
              p.partial_jsons.set idx (p.partial_jsons.getD idx "" ++ d.partial_json) }
        else if d.type == "thinking_delta" then
          match p.content_blocks.getD idx (.text "") with
          | .thinking t =>
            { p with content_blocks := p.content_blocks.set idx (.thinking (t ++ d.thinking)) }
          | _ => p
        else p
      else p
    | none => p
  | .contentBlockStop =>
    let idx := uidx event.content_block_index
    if idx < p.content_blocks.length ∧ idx < p.partial_jsons.length then
      match p.content_blocks.getD idx (.text "") with
      | .toolUse id name _input =>
        if p.partial_jsons.getD idx "" ≠ "" then
          match parse (p.partial_jsons.getD idx "").data with
          | some parsed =>
            { p with content_blocks := p.content_blocks.set idx (.toolUse id name parsed) }
          | none => p  -- keep the raw fragment on parse failure
        else p
      | _ => p
    else p
  | .messageDelta =>
    let p :=
      match event.stop_reason, p.response with
      | some sr, some r => { p with response := some { r with stop_reason := some sr } }
      | _, _ => p
    match event.usage, p.response with
    | some u, some r => { p with response := some { r with usage := u } }
    | _, _ => p
  | .messageStop =>
    let p :=
      match p.response with
      | some r => { p with response := some { r with content := p.content_blocks } }
      | none => p
    { p with complete := true }
  | .error =>
    { p with has_error := true,
             error_message := event.error.getD "Unknown streaming error" }
  | .ping => p

/-- StreamingParser::Impl::process_line (streaming_parser.cpp lines
30-64).  The event trace append mirrors the callback invocation. -/
def process_line (parse : List Char → Option Json) (p : ParserCore)
    (line : List Char) : ParserCore :=
  if ("event:".data).isPrefixOf line then p
  else if ("data:".data).isPrefixOf line then
    let data := (line.drop 5).dropWhile (fun c => c == ' ' || c == '\t')
    if data = [] ∨ data = "[DONE]".data then p
    else
      match parse data with
      | none => p  -- JSON parse error: swallowed, might be partial data
      | some j =>
        match fromJsonStreamEvent j with
        | none => p  -- from_json exception: swallowed by the same catch
        | some event =>
          let p := process_event parse p event
          { p with events := p.events ++ [event] }
  else p

/-- Full parser state: Impl state plus the line buffer. -/
structure SPState where
  core : ParserCore := {}
  buffer : List Char := []

/-- Initial state of a freshly constructed StreamingParser. -/
def initParser : SPState := {}

/-- Splits a byte buffer into the complete lines before each newline and
the trailing remainder (the body of the while loop in
StreamingParser::feed, streaming_parser.cpp lines 160-173, reads one
line per iteration; this computes all of them at once, in order). -/
def splitLines : List Char → List (List Char) × List Char
  | [] => ([], [])
  | c :: cs =>
    if c = '\n' then
      ([] :: (splitLines cs).1, (splitLines cs).2)
    else
      match splitLines cs with
      | (l :: ls, r) => ((c :: l) :: ls, r)
      | ([], r) => ([], c :: r)

/-- Removal of a trailing CR from a line (streaming_parser.cpp lines
166-168). -/
def stripCR (line : List Char) : List Char :=
  if line.getLast? = some '\r' then line.dropLast else line

/-- One iteration of the feed loop body: strip the CR, skip empty lines,
process the rest (streaming_parser.cpp lines 166-172). -/
def feedLine (parse : List Char → Option Json) (p : ParserCore)
    (line : List Char) : ParserCore :=
  let line := stripCR line
  if line = [] then p else process_line parse p line

/-- StreamingParser::feed (streaming_parser.cpp lines 156-174). -/
def StreamingParser.feed (parse : List Char → Option Json) (st : SPState)
    (data : List Char) : SPState :=
  let buf := st.buffer ++ data
  let split := splitLines buf
  { core := split.1.foldl (feedLine parse) st.core, buffer := split.2 }

/-- StreamingParser::finish (streaming_parser.cpp lines 176-182): flush
the unterminated trailing buffer through process_line (no CR strip). -/
def StreamingParser.finish (parse : List Char → Option Json)
    (st : SPState) : SPState :=
  if st.buffer = [] then st
  else { core := process_line parse st.core st.buffer, buffer := [] }

/-- StreamingParser::reset (streaming_parser.cpp lines 184-192): clears
exactly the listed fields.  The ghost `events` trace (past callback
invocations) is untouched, as the C++ object has no such member. -/
def StreamingParser.reset (st : SPState) : SPState :=
  { core :=
      { st.core with
        response := none
        content_blocks := []
        partial_jsons := []
        complete := false
        has_error := false
        error_message := "" }
    buffer := [] }

/-- StreamingParser::get_response (streaming_parser.cpp lines
194-196). -/
def StreamingParser.get_response (st : SPState) : Option CreateMessageResponse :=
  st.core.response

/-- StreamingParser::is_complete (streaming_parser.cpp lines 198-200). -/
def StreamingParser.is_complete (st : SPState) : Bool :=
  st.core.complete

/-- StreamingParser::has_error (streaming_parser.cpp lines 202-204). -/
def StreamingParser.has_error (st : SPState) : Bool :=
  st.core.has_error

/-- A whole parser run: a sequence of feed() calls followed by
finish(), starting from a freshly constructed parser. -/
def runStream (parse : List Char → Option Json)
    (chunks : List (List Char)) : SPState :=
  StreamingParser.finish parse (chunks.foldl (StreamingParser.feed parse) initParser)

/-! ## A concrete JSON parser

Modelled from the spec: the external nlohmann::json::parse used by the
streaming parser (src/api/streaming_parser.cpp line 49) is not part of
this repository; this is a standard recursive-descent JSON parser
restricted to the integer-number fragment, used to instantiate the
`parse` parameter on concrete runs. -/

/-- JSON insignificant whitespace. -/
def jsonWs (c : Char) : Bool :=
  match c with
  | ' ' | '\t' | '\n' | '\r' => true
  | _ => false

/-- Skips insignificant whitespace. -/
def skipWs (s : List Char) : List Char :=
  s.dropWhile jsonWs

/-- Opening brace character. -/
def lbrace : Char := Char.ofNat 123

/-- Closing brace character. -/
def rbrace : Char := Char.ofNat 125

/-- JSON string escape characters (the \uXXXX form is outside the
modelled fragment). -/
def escChar (c : Char) : Option Char :=
  match c with
  | '"' => some '"'
  | '\\' => some '\\'
  | '/' => some '/'
  | 'n' => some '\n'
  | 't' => some '\t'
  | 'r' => some '\r'
  | 'b' => some (Char.ofNat 8)
  | 'f' => some (Char.ofNat 12)
  | _ => none

/-- Parses a JSON string body after the opening quote, returning the
decoded characters and the input after the closing quote. -/
def parseStringBody : List Char → Option (List Char × List Char)
  | [] => none
  | '"' :: rest => some ([], rest)
  | '\\' :: e :: rest => do
    let c ← escChar e
    let (s, r) ← parseStringBody rest
    pure (c :: s, r)
  | c :: rest => do
    let (s, r) ← parseStringBody rest
    pure (c :: s, r)

/-- Decimal digits to a natural number. -/
def digitsToNat (ds : List Char) : Nat :=
  ds.foldl (fun n c => n * 10 + (c.toNat - 48)) 0

mutual

/-- Parses one JSON value (fuel-indexed recursive descent). -/
def parseValue : Nat → List Char → Option (Json × List Char)
  | 0, _ => none
  | fuel + 1, s =>
    match skipWs s with
    | [] => none
    | c :: rest =>
      if c == '"' then
        (parseStringBody rest).map (fun x => (.str (String.mk x.1), x.2))
      else if c == lbrace then
        match skipWs rest with
        | c2 :: rest2 =>
          if c2 == rbrace then some (.obj [], rest2)
          else (parseMembers fuel (c2 :: rest2)).map (fun x => (.obj x.1, x.2))
        | [] => none
      else if c == '[' then
        match skipWs rest with
        | ']' :: rest2 => some (.arr [], rest2)
        | rest2 => (parseElements fuel rest2).map (fun x => (.arr x.1, x.2))
      else if c == 't' then
        if ("rue".data).isPrefixOf rest then some (.bool true, rest.drop 3) else none
      else if c == 'f' then
        if ("alse".data).isPrefixOf rest then some (.bool false, rest.drop 4) else none
      else if c == 'n' then
        if ("ull".data).isPrefixOf rest then some (.null, rest.drop 3) else none
      else if c == '-' then
        let ds := rest.takeWhile (·.isDigit)
        if ds = [] then none
        else some (.num (-(digitsToNat ds : ℚ)), rest.drop ds.length)
      else if c.isDigit then
        let ds := (c :: rest).takeWhile (·.isDigit)
        some (.num (digitsToNat ds : ℚ), (c :: rest).drop ds.length)
      else none

/-- Parses the members of a JSON object up to and including the closing
brace. -/
def parseMembers : Nat → List Char → Option (List (String × Json) × List Char)
  | 0, _ => none
  | fuel + 1, s =>
    match skipWs s with
    | '"' :: rest => do
      let (k, r1) ← parseStringBody rest
      match skipWs r1 with
      | ':' :: r2 => do
        let (v, r3) ← parseValue fuel r2
        match skipWs r3 with
        | ',' :: r4 => do
          let (kvs, r5) ← parseMembers fuel r4
          pure ((String.mk k, v) :: kvs, r5)
        | c :: r4 =>
          if c == rbrace then pure ([(String.mk k, v)], r4) else none
        | [] => none
      | _ => none
    | _ => none

/-- Parses the elements of a JSON array up to and including the closing
bracket. -/
def parseElements : Nat → List Char → Option (List Json × List Char)
  | 0, _ => none
  | fuel + 1, s => do
    let (v, r1) ← parseValue fuel s
    match skipWs r1 with
    | ',' :: r2 => do
      let (vs, r3) ← parseElements fuel r2
      pure (v :: vs, r3)
    | ']' :: r2 => pure ([v], r2)
    | _ => none

end

/-- The concrete JSON parse function: a whole input must form exactly
one value (plus trailing whitespace). -/
def jsonParseModel (s : List Char) : Option Json := do
  let (j, rest) ← parseValue (s.length + 1) s
  if skipWs rest = [] then pure j else none

/-! ## Script-directive extraction (src/api/streaming_parser.cpp lines
214-269)

The C++ scans with the non-greedy regex <idascript>([\s\S]*?)</idascript>:
the leftmost match starts at the first occurrence of the open tag that is
followed by a close tag, and its body ends at the first close tag after
it.  `findBlockSplit` computes exactly that decomposition. -/

/-- trim (src/core/types.cpp lines 237-242): strips the C++ whitespace
set " \t\n\r\f\v" from both ends. -/
def cppWs (c : Char) : Bool :=
  match c with
  | ' ' | '\t' | '\n' | '\r' => true
  | _ => c == Char.ofNat 12 || c == Char.ofNat 11

/-- trim over character lists. -/
def trimL (s : List Char) : List Char :=
  ((s.dropWhile cppWs).reverse.dropWhile cppWs).reverse

/-- Index of the first occurrence of `needle` in the haystack. -/
def findSubstr (needle : List Char) : List Char → Option Nat
  | [] => if needle.isPrefixOf ([] : List Char) then some 0 else none
  | c :: cs =>
    if needle.isPrefixOf (c :: cs) then some 0
    else (findSubstr needle cs).map (· + 1)

/-- The open marker of a script directive. -/
def openTag : List Char := "<idascript>".data

/-- The close marker of a script directive. -/
def closeTag : List Char := "</idascript>".data

/-- ScriptBlock (include/ida_chat/api/streaming_parser.hpp lines
87-90). -/
structure ScriptBlock where
  code : String := ""
  preceding_text : String := ""
  deriving DecidableEq, Repr

/-- Decomposes a text at its leftmost regex match: the text before the
open tag, the raw body between the tags, and the text after the close
tag; `none` when the regex does not match. -/
def findBlockSplit (s : List Char) : Option (List Char × List Char × List Char) :=
  match findSubstr openTag s with
  | none => none
  | some i =>
    let afterOpen := (s.drop i).drop openTag.length
    match findSubstr closeTag afterOpen with
    | none => none
    | some j => some (s.take i, afterOpen.take j, (afterOpen.drop j).drop closeTag.length)

/-- The regex_search loop of extract_idascript_blocks
(streaming_parser.cpp lines 226-243), fuel-indexed: returns the matched
blocks (code trimmed, preceding text attached) and the text after the
last match. -/
def extractAuxFuel : Nat → List Char → List ScriptBlock × List Char
  | 0, s => ([], s)
  | fuel + 1, s =>
    match findBlockSplit s with
    | none => ([], s)
    | some (pre, raw, rest) =>
      let x := extractAuxFuel fuel rest
      ({ code := String.mk (trimL raw), preceding_text := String.mk pre } :: x.1, x.2)

/-- The regex_search loop at its canonical fuel. -/
def extractCore (s : List Char) : List ScriptBlock × List Char :=
  extractAuxFuel s.length s

/-- extract_idascript_blocks (streaming_parser.cpp lines 214-256): the
matched blocks, plus one trailing code-less block when text follows the
last match and at least one match occurred. -/
def extract_idascript_blocks (text : String) : List ScriptBlock :=
  let x := extractCore text.data
  if x.1 = [] then []
  else if x.2 ≠ [] then x.1 ++ [{ code := "", preceding_text := String.mk x.2 }]
  else x.1

/-- has_idascript_blocks (streaming_parser.cpp lines 258-261):
regex_search for the bare open tag. -/
def has_idascript_blocks (text : String) : Bool :=
  (findSubstr openTag text.data).isSome

/-- The regex_replace loop of strip_idascript_blocks, fuel-indexed. -/
def stripAuxFuel : Nat → List Char → List Char
  | 0, s => s
  | fuel + 1, s =>
    match findBlockSplit s with
    | none => s
    | some (pre, _raw, rest) => pre ++ stripAuxFuel fuel rest

/-- strip_idascript_blocks (streaming_parser.cpp lines 263-269):
replaces every regex match with the empty string. -/
def strip_idascript_blocks (text : String) : String :=
  String.mk (stripAuxFuel text.data.length text.data)

/-! ## Messages, requests and serialization (claude_types.hpp,
src/api/claude_types.cpp) -/

/-- message_role_str (claude_types.hpp lines 88-90). -/
def message_role_str : MessageRole → String
  | .user => "user"
  | .assistant => "assistant"

/-- ClaudeMessage (claude_types.hpp lines 99-170). -/
structure ClaudeMessage where
  role : MessageRole
  content : List ContentBlock := []

/-- ClaudeMessage::user (claude_types.hpp lines 116-118). -/
def ClaudeMessage.user (text : String) : ClaudeMessage :=
  { role := .user, content := [.text text] }

/-- ToolInputSchema (claude_types.hpp lines 179-181). -/
structure ToolInputSchema where
  schema : Json := .null

/-- ToolDefinition (claude_types.hpp lines 186-190). -/
structure ToolDefinition where
  name : String := ""
  description : String := ""
  input_schema : ToolInputSchema := {}

/-- CreateMessageRequest::ThinkingConfig (claude_types.hpp lines
209-212). -/
structure ThinkingConfig where
  enabled : Bool := false
  budget_tokens : Int := 10000

/-- CreateMessageRequest (claude_types.hpp lines 199-214).  The
double-typed temperature is modelled as a rational. -/
structure CreateMessageRequest where
  model : String := "claude-sonnet-4-20250514"
  messages : List ClaudeMessage := []
  system : String := ""
  tools : List ToolDefinition := []
  max_tokens : Int := 8192
  temperature : Option ℚ := none
  stream : Bool := true
  thinking : Option ThinkingConfig := none

/-- to_json for a ContentBlock (claude_types.cpp lines 14-56). -/
def toJsonContentBlock : ContentBlock → Json
  | .text t => .obj [("type", .str "text"), ("text", .str t)]
  | .toolUse id name input =>
    .obj [("type", .str "tool_use"), ("id", .str id), ("name", .str name), ("input", input)]
  | .toolResult tid content isErr =>
    let base := [("type", .str "tool_result"), ("tool_use_id", .str tid),
                 ("content", .str content)]
    .obj (if isErr then base ++ [("is_error", .bool true)] else base)
  | .thinking t => .obj [("type", .str "thinking"), ("thinking", .str t)]

/-- to_json for a ClaudeMessage (claude_types.cpp lines 58-68). -/
def toJsonMessage (m : ClaudeMessage) : Json :=
  .obj [("role", .str (message_role_str m.role)),
        ("content", .arr (m.content.map toJsonContentBlock))]

/-- to_json for a ToolDefinition (claude_types.cpp lines 70-76). -/
def toJsonTool (t : ToolDefinition) : Json :=
  .obj [("name", .str t.name), ("description", .str t.description),
        ("input_schema", t.input_schema.schema)]

/-- to_json for a CreateMessageRequest (claude_types.cpp lines 78-118):
model, messages and max_tokens always; system, tools, temperature,
stream and thinking only when logically present. -/
def toJsonRequest (r : CreateMessageRequest) : Json :=
  let kvs : List (String × Json) :=
    [("model", .str r.model),
     ("messages", .arr (r.messages.map toJsonMessage)),
     ("max_tokens", .num (r.max_tokens : ℚ))]
  let kvs := if r.system ≠ "" then kvs ++ [("system", .str r.system)] else kvs
  let kvs := if r.tools.isEmpty then kvs else kvs ++ [("tools", .arr (r.tools.map toJsonTool))]
  let kvs :=
    match r.temperature with
    | some t => kvs ++ [("temperature", .num t)]
    | none => kvs
  let kvs := if r.stream then kvs ++ [("stream", .bool true)] else kvs
  let kvs :=
    match r.thinking with
    | some cfg =>
      if cfg.enabled then
        kvs ++ [("thinking", .obj [("type", .str "enabled"),
                                   ("budget_tokens", .num (cfg.budget_tokens : ℚ))])]
      else kvs
    | none => kvs
  .obj kvs

/-! ## Client usage accounting (src/api/claude_client.cpp) -/

/-- The client's running total after a sequence of successful calls:
ClaudeClient::Impl::total_usage starts zeroed and receives
`total_usage += response.usage` once per successful call
(claude_client.cpp lines 162 and 214). -/
def accumulate_usage (us : List TokenUsage) : TokenUsage :=
  us.foldl tokenAdd {}

/-- ClaudeClient::estimate_cost (claude_client.cpp lines 246-253), with
the double arithmetic modelled exactly over the rationals:
$3/M input, $15/M output, cache reads at a 0.1 discount multiplier on
the input price. -/
def estimate_cost (u : TokenUsage) : ℚ :=
  let input_cost := ((u.input_tokens : ℚ) / 1000000) * 3
  let output_cost := ((u.output_tokens : ℚ) / 1000000) * 15
  let cache_cost := ((u.cache_read_tokens : ℚ) / 1000000) * (3 * (1 / 10))
  input_cost + output_cost + cache_cost

/-- ClaudeClient::get_idascript_tool (claude_client.cpp lines
255-283). -/
def get_idascript_tool : ToolDefinition :=
  { name := "idascript"
    description := "Execute Python code in IDA Pro\x27s scripting environment.\n\nThe code has access to all IDA Pro APIs and the `db` object from ida-domain for database operations.\n\nUse this tool to:\n- Analyze binary code, functions, and data\n- Navigate the disassembly\n- Query cross-references\n- Extract strings and constants\n- Decompile functions (if Hex-Rays is available)\n\nThe output will be captured and returned. Print results you want to see."
    input_schema :=
      ⟨.obj [("type", .str "object"),
             ("properties", .obj [("code", .obj [("type", .str "string"),
               ("description", .str "Python code to execute in IDA")])]),
             ("required", .arr [.str "code"])]⟩ }

/-- ClaudeClient::get_default_tools (claude_client.cpp lines 285-287). -/
def get_default_tools : List ToolDefinition :=
  [get_idascript_tool]

/-! ## Agent loop controller (src/core/chat_core.cpp)

The two external effect sources are oracles: `transport` models
ClaudeClient::send_message_streaming as seen by the loop (the request
sent and the assembled response or `none`), indexed by how many network
calls were made before; `cli` models run_cli_call (one whole subprocess
invocation), indexed likewise.  `exec` is the injected script executor.
The counters and the `script_codes` trace are instrumentation recording
the calls made to these collaborators. -/

/-- ScriptResult (types.hpp lines 124-137). -/
structure ScriptResult where
  success : Bool := false
  output : String := ""
  error : String := ""

/-- ChatCoreOptions (chat_core.hpp lines 30-36); `verbose` is unused by
the modelled code. -/
structure ChatCoreOptions where
  max_turns : Int := 20
  model : String := "claude-sonnet-4-20250514"
  enable_thinking : Bool := false
  thinking_budget : Int := 10000

/-- ChatState (types.hpp lines 178-184). -/
inductive ChatState where
  | disconnected : ChatState
  | connecting : ChatState
  | idle : ChatState
  | processing : ChatState
  | cancelled : ChatState
  deriving DecidableEq, Repr

/-- ProcessResult (chat_core.hpp lines 41-48). -/
structure ProcessResult where
  success : Bool := false
  response : String := ""
  turns_used : Int := 0
  cost : Option ℚ := none
  error : String := ""
  cancelled : Bool := false
  deriving DecidableEq, Repr

/-- ChatCore::Impl::CLIResponse (chat_core.cpp lines 107-114). -/
structure CLIResponse where
  response_text : String := ""
  error_text : String := ""
  got_response : Bool := false
  cost : ℚ := 0
  num_turns : Int := 1
  session_id : String := ""

/-- The injected collaborators of a ChatCore instance. -/
structure CoreEnv where
  options : ChatCoreOptions := {}
  system_prompt : String := ""
  exec : String → ScriptResult
  transport : Nat → CreateMessageRequest → Option CreateMessageResponse
  cli : Nat → String → String → Bool → CLIResponse

/-- The mutable state of a ChatCore instance (chat_core.cpp lines
33-49), with instrumentation counters for the external calls. -/
structure CoreState where
  use_cli_mode : Bool := false
  cli_path : String := ""
  has_client : Bool := false
  chat_state : ChatState := .disconnected
  cancelled : Bool := false
  conversation : List ClaudeMessage := []
  core_usage : TokenUsage := {}
  client_usage : TokenUsage := {}
  transport_calls : Nat := 0
  cli_calls : Nat := 0
  script_codes : List String := []

/-- ChatCore::Impl::execute_script (chat_core.cpp lines 58-87): records
the code (the on_script_code callback), runs the executor, and returns
the output or the prefixed error text. -/
def execute_script (env : CoreEnv) (st : CoreState) (code : String) :
    String × CoreState :=
  let st := { st with script_codes := st.script_codes ++ [code] }
  let result := env.exec code
  if result.success then (result.output, st)
  else ("Error: " ++ result.error, st)

/-- The body of the process_scripts loop (chat_core.cpp lines 96-101):
a block with non-empty code is recorded and executed, any other block is
skipped. -/
def scriptsStep (env : CoreEnv) (acc : List String × List String × CoreState)
    (block : ScriptBlock) : List String × List String × CoreState :=
  if block.code ≠ "" then
    let out := execute_script env acc.2.2 block.code
    (acc.1 ++ [block.code], acc.2.1 ++ [out.1], out.2)
  else acc

/-- ChatCore::Impl::process_scripts (chat_core.cpp lines 90-104): runs
every extracted block with non-empty code, in order. -/
def process_scripts (env : CoreEnv) (st : CoreState) (text : String) :
    List String × List String × CoreState :=
  (extract_idascript_blocks text).foldl (scriptsStep env) ([], [], st)

/-- The code after the network turn loop (chat_core.cpp lines 560-568):
success, stripped accumulated response, turns used, estimated cost. -/
def netExit (_env : CoreEnv) (turn : Int) (full_response : String)
    (st : CoreState) : CoreState × ProcessResult :=
  ({ st with chat_state := .idle },
   { success := true
     response := strip_idascript_blocks full_response
     turns_used := turn
     cost := some (estimate_cost st.client_usage) })

/-- The network-mode turn loop (chat_core.cpp lines 463-558),
fuel-indexed; `process_message` enters it with fuel `max_turns.toNat`,
so the fuel never runs out before the loop condition fails. -/
def netLoop (env : CoreEnv) : Nat → Int → String → CoreState →
    CoreState × ProcessResult
  | 0, turn, full_response, st => netExit env turn full_response st
  | fuel + 1, turn, full_response, st =>
    if turn < env.options.max_turns ∧ st.cancelled = false then
      let turn := turn + 1
      let request : CreateMessageRequest :=
        { model := env.options.model
          messages := st.conversation
          system := env.system_prompt
          tools := get_default_tools
          stream := true
          thinking :=
            if env.options.enable_thinking then
              some { enabled := true, budget_tokens := env.options.thinking_budget }
            else none }
      match env.transport st.transport_calls request with
      | none =>
        let st := { st with transport_calls := st.transport_calls + 1, chat_state := .idle }
        (st, if st.cancelled then { cancelled := true }
             else { error := "Failed to get response from Claude" })
      | some resp =>
        let st := { st with
                    transport_calls := st.transport_calls + 1
                    client_usage := tokenAdd st.client_usage resp.usage }
        let response_text := resp.get_text
        let st := { st with
                    conversation := st.conversation ++
                      [{ role := .assistant, content := resp.content }]
                    core_usage := tokenAdd st.core_usage resp.usage }
        let full_response := full_response ++ response_text
        if has_idascript_blocks response_text then
          let ps := process_scripts env st response_text
          if ps.1 ≠ [] then
            let combined := String.intercalate "\n---\n" ps.2.1
            let st := { ps.2.2 with
                        conversation := ps.2.2.conversation ++
                          [ClaudeMessage.user ("Script output:\n" ++ combined)] }
            netLoop env fuel turn full_response st
          else netExit env turn full_response ps.2.2
        else netExit env turn full_response st
    else netExit env turn full_response st

/-- The code after the CLI turn loop (chat_core.cpp lines 359-373). -/
def cliExit (_env : CoreEnv) (full_response : String) (total_cost : ℚ)
    (total_turns : Int) (st : CoreState) : CoreState × ProcessResult :=
  ({ st with chat_state := .idle },
   { success := true
     response := strip_idascript_blocks full_response
     turns_used := total_turns
     cost := some total_cost })

/-- The CLI-mode turn loop (chat_core.cpp lines 297-357),
fuel-indexed. -/
def cliLoop (env : CoreEnv) : Nat → Int → String → String → Bool →
    String → ℚ → Int → CoreState → CoreState × ProcessResult
  | 0, _, _, _, _, full, cost, turns, st => cliExit env full cost turns st
  | fuel + 1, turn, session_id, current_message, is_continue, full, cost, turns, st =>
    if turn < env.options.max_turns ∧ st.cancelled = false then
      let r := env.cli st.cli_calls current_message session_id is_continue
      let st := { st with cli_calls := st.cli_calls + 1 }
      if r.error_text ≠ "" then
        ({ st with chat_state := .idle }, { error := r.error_text })
      else if r.got_response = false then
        ({ st with chat_state := .idle }, { error := "No response from Claude" })
      else
        let session_id := if r.session_id ≠ "" then r.session_id else session_id
        let full := full ++ r.response_text
        let cost := cost + r.cost
        let turns := turns + 1
        if has_idascript_blocks r.response_text then
          let ps := process_scripts env st r.response_text
          if ps.1 ≠ [] ∧ ps.2.1 ≠ [] then
            if session_id = "" then cliExit env full cost turns ps.2.2
            else
              let combined := "Script execution results:\n\n" ++
                String.join (ps.2.1.map (fun o => "```\n" ++ o ++ "\n```\n\n"))
              cliLoop env fuel (turn + 1) session_id combined true full cost turns ps.2.2
          else cliExit env full cost turns ps.2.2
        else cliExit env full cost turns st
    else cliExit env full cost turns st

/-- ChatCore::Impl::process_message_cli (chat_core.cpp lines 271-374):
resets the cancellation flag, then runs the CLI loop from turn 0. -/
def process_message_cli (env : CoreEnv) (st : CoreState)
    (user_input : String) : CoreState × ProcessResult :=
  let st := { st with chat_state := .processing, cancelled := false }
  cliLoop env env.options.max_turns.toNat 0 "" user_input false "" 0 0 st

/-- ChatCore::is_connected (chat_core.cpp lines 429-434). -/
def is_connected (st : CoreState) : Bool :=
  if st.use_cli_mode then
    st.chat_state ≠ .disconnected ∧ st.cli_path ≠ ""
  else
    st.chat_state ≠ .disconnected ∧ st.has_client

/-- ChatCore::process_message (chat_core.cpp lines 436-569): guard on
connectivity, dispatch to the CLI path, otherwise reset the
cancellation flag, push the user message and run the network turn
loop. -/
def process_message (env : CoreEnv) (st : CoreState) (user_input : String) :
    CoreState × ProcessResult :=
  if is_connected st = false then (st, { error := "Not connected" })
  else if st.use_cli_mode then process_message_cli env st user_input
  else
    let st := { st with chat_state := .processing, cancelled := false }
    let st := { st with conversation := st.conversation ++ [ClaudeMessage.user user_input] }
    netLoop env env.options.max_turns.toNat 0 "" st

/-- The output fed back for one executed directive: the executor's
output on success, the prefixed error text on failure (chat_core.cpp
lines 58-87). -/
def scriptOutput (env : CoreEnv) (code : String) : String :=
  let r := env.exec code
  if r.success then r.output else "Error: " ++ r.error

/-- The directive codes of a reply that process_scripts actually runs:
the non-empty codes of the extracted blocks, in order. -/
def nonemptyCodes (text : String) : List String :=
  ((extract_idascript_blocks text).filter (fun b => b.code ≠ "")).map (·.code)

/-! ## Concrete fixtures for counterexamples and witnesses -/

/-- One SSE line carrying a message_stop event, newline-terminated. -/
def msgStopChunk : List Char :=
  "data: \x7b\"type\":\"message_stop\"\x7d\n".data

/-- A model reply containing one script directive. -/
def respD : CreateMessageResponse :=
  { content := [.text "Run<idascript>print(1)</idascript>"] }

/-- A model reply with plain text and no directives. -/
def respH : CreateMessageResponse :=
  { content := [.text "hi"] }

/-- A connected network-mode environment whose transport always answers
with the directive-free reply. -/
def envH : CoreEnv :=
  { options := { max_turns := 10 }
    exec := fun _ => {}
    transport := fun _ _ => some respH
    cli := fun _ _ _ _ => {} }

/-- A connected network-mode environment with a one-turn budget whose
transport always answers with the directive-carrying reply. -/
def envD1 : CoreEnv :=
  { options := { max_turns := 1 }
    exec := fun _ => { success := true, output := "2" }
    transport := fun _ _ => some respD
    cli := fun _ _ _ _ => {} }

/-- The same environment with a two-turn budget. -/
def envD2 : CoreEnv :=
  { options := { max_turns := 2 }
    exec := fun _ => { success := true, output := "2" }
    transport := fun _ _ => some respD
    cli := fun _ _ _ _ => {} }

/-- A connected idle network-mode core state. -/
def stIdle : CoreState :=
  { has_client := true, chat_state := .idle }

/-- The same state after request_cancel() set the cancellation flag. -/
def stIdleCancelled : CoreState :=
  { has_client := true, chat_state := .idle, cancelled := true }

/-- Two concrete usage reports. -/
def usW : List TokenUsage :=
  [⟨1, 2, 3, 4⟩, ⟨5, 6, 7, 8⟩]

/-- A request whose optional fields are all logically absent. -/
def reqW : CreateMessageRequest :=
  { model := "m", max_tokens := 100, stream := false }

/-- A parser state holding a single ToolUse block. -/
def pcW : ParserCore :=
  { content_blocks := [.toolUse "toolu_1" "idascript" .null], partial_jsons := [""] }

/-- A text delta payload aimed at index 0. -/
def dW : DeltaPayload :=
  { index := 0, type := "text_delta", text := "x" }

/-- A ContentBlockDelta event carrying `dW` at index 0. -/
def evW : StreamEvent :=
  { type := .contentBlockDelta, content_block_index := 0, delta := some dW }

/-- The core state after one full network turn whose reply carried
directives: one more transport call, usage accumulated, the assistant
reply and the script-output feedback message appended, the executed
directive codes recorded. -/
def stepState (env : CoreEnv) (r : Nat → CreateMessageResponse)
    (st : CoreState) : CoreState :=
  { st with
    transport_calls := st.transport_calls + 1
    client_usage := tokenAdd st.client_usage (r st.transport_calls).usage
    core_usage := tokenAdd st.core_usage (r st.transport_calls).usage
    conversation := (st.conversation ++
      [{ role := .assistant, content := (r st.transport_calls).content }]) ++
      [ClaudeMessage.user ("Script output:\n" ++ String.intercalate "\n---\n"
        ((nonemptyCodes ((r st.transport_calls).get_text)).map (scriptOutput env)))]
    script_codes := st.script_codes ++ nonemptyCodes ((r st.transport_calls).get_text) }

/-- The directive codes of `n` consecutive replies starting at call
index `base`, concatenated in execution order. -/
def concatCodes (r : Nat → CreateMessageResponse) (base n : Nat) : List String :=
  match n with
  | 0 => []
  | m + 1 => nonemptyCodes ((r base).get_text) ++ concatCodes r (base + 1) m

/-- The texts of `n` consecutive replies starting at call index `base`,
concatenated in accumulation order. -/
def concatTexts (r : Nat → CreateMessageResponse) (base n : Nat) : String :=
  match n with
  | 0 => ""
  | m + 1 => (r base).get_text ++ concatTexts r (base + 1) m

/-! ## Theorems -/

/-- C5: For the assistant text "Let's check: " + open marker +
"print(1+1)" + close marker + " done." with the code's
<idascript>/</idascript> delimiters, extraction yields the directive
"print(1+1)" with preceding text "Let's check: " (plus the trailing
code-less block carrying " done."), and stripping the marker-bracketed
regions yields "Let's check:  done.". -/
theorem claim_c5_example_extraction :
    extract_idascript_blocks
        "Let\x27s check: <idascript>print(1+1)</idascript> done." =
      [{ code := "print(1+1)", preceding_text := "Let\x27s check: " },
       { code := "", preceding_text := " done." }] ∧
    strip_idascript_blocks
        "Let\x27s check: <idascript>print(1+1)</idascript> done." =
      "Let\x27s check:  done." := by
  constructor <;> decide

/-- C8: reset() brings any parser state back to the observables of a
freshly constructed parser: no error, no response, not complete, empty
line buffer, empty block and fragment storage, empty error message. -/
theorem claim_c8_reset_fresh (st : SPState) :
    StreamingParser.has_error (StreamingParser.reset st) = false ∧
    StreamingParser.get_response (StreamingParser.reset st) = none ∧
    StreamingParser.is_complete (StreamingParser.reset st) = false ∧
    (StreamingParser.reset st).buffer = [] ∧
    (StreamingParser.reset st).core.content_blocks = [] ∧
    (StreamingParser.reset st).core.partial_jsons = [] ∧
    (StreamingParser.reset st).core.error_message = "" := by
  refine ⟨rfl, rfl, rfl, rfl, rfl, rfl, rfl⟩

/-- Key absence in a JSON object, elementwise. -/
theorem lookupKey_obj_eq_none (kvs : List (String × Json)) (k : String) :
    (Json.obj kvs).lookupKey k = none ↔ ∀ kv ∈ kvs, kv.1 ≠ k := by
  simp [Json.lookupKey, List.find?_eq_none]

/-- C7: Serializing a request omits each logically absent field
entirely: no "tools" key for an empty tool list, no "temperature" key
when unset, no "thinking" key when extended thinking is disabled, no
"system" key for an empty system prompt, no "stream" key when streaming
is off. -/
theorem claim_c7_request_omits_absent_fields (r : CreateMessageRequest) :
    (r.tools = [] → (toJsonRequest r).lookupKey "tools" = none) ∧
    (r.temperature = none → (toJsonRequest r).lookupKey "temperature" = none) ∧
    (r.thinking.all (fun c => !c.enabled) = true →
      (toJsonRequest r).lookupKey "thinking" = none) ∧
    (r.system = "" → (toJsonRequest r).lookupKey "system" = none) ∧
    (r.stream = false → (toJsonRequest r).lookupKey "stream" = none) := by
  refine ⟨?_, ?_, ?_, ?_, ?_⟩ <;> intro h <;>
    by_cases hsys : r.system = "" <;>
    rcases htemp : r.temperature with _ | t <;>
    rcases hth : r.thinking with _ | cfg <;>
    by_cases hstr : r.stream = true <;>
    by_cases htool : r.tools.isEmpty = true <;>
    first
      | (by_cases hen : cfg.enabled = true <;>
          simp_all [toJsonRequest, Json.lookupKey, List.find?])
      | simp_all [toJsonRequest, Json.lookupKey, List.find?]

/-- Witness for C7 at the concrete request `reqW`. -/
theorem claim_c7_witness :
    reqW.tools = [] ∧ reqW.temperature = none ∧
    reqW.thinking.all (fun c => !c.enabled) = true ∧
    reqW.system = "" ∧ reqW.stream = false ∧
    (toJsonRequest reqW).lookupKey "tools" = none ∧
    (toJsonRequest reqW).lookupKey "temperature" = none ∧
    (toJsonRequest reqW).lookupKey "thinking" = none ∧
    (toJsonRequest reqW).lookupKey "system" = none ∧
    (toJsonRequest reqW).lookupKey "stream" = none := by
  refine ⟨rfl, rfl, rfl, rfl, rfl,
    (claim_c7_request_omits_absent_fields reqW).1 rfl,
    (claim_c7_request_omits_absent_fields reqW).2.1 rfl,
    (claim_c7_request_omits_absent_fields reqW).2.2.1 rfl,
    (claim_c7_request_omits_absent_fields reqW).2.2.2.1 rfl,
    (claim_c7_request_omits_absent_fields reqW).2.2.2.2 rfl⟩

/-- C10: Processing a ContentBlockDelta whose index is outside the
allocated block array, or whose text/thinking delta kind does not match
the block stored at that index, leaves the block array and the
accumulated-JSON buffers unchanged and does not change the error
flag. -/
theorem claim_c10_mismatched_delta_no_change
    (parse : List Char → Option Json) (p : ParserCore) (e : StreamEvent)
    (d : DeltaPayload)
    (htype : e.type = .contentBlockDelta) (hd : e.delta = some d)
    (hmis :
      p.content_blocks.length ≤ uidx e.content_block_index ∨
      (uidx e.content_block_index < p.content_blocks.length ∧
        ((d.type = "text_delta" ∧
          (p.content_blocks.getD (uidx e.content_block_index) (.text "")).isText = false) ∨
         (d.type = "thinking_delta" ∧
          (p.content_blocks.getD (uidx e.content_block_index) (.text "")).isThinking = false)))) :
    (process_event parse p e).content_blocks = p.content_blocks ∧
    (process_event parse p e).partial_jsons = p.partial_jsons ∧
    (process_event parse p e).has_error = p.has_error := by
  unfold process_event
  rw [htype, hd]
  dsimp only
  rcases hmis with hoob | ⟨hin, hkind⟩
  · rw [if_neg (by omega)]
    exact ⟨rfl, rfl, rfl⟩
  · rw [if_pos hin]
    rcases hkind with ⟨hty, hblock⟩ | ⟨hty, hblock⟩
    · rw [hty, if_pos (by decide)]
      cases hb : p.content_blocks.getD (uidx e.content_block_index) (.text "") <;>
        simp_all [ContentBlock.isText]
    · rw [hty, if_neg (by decide), if_neg (by decide), if_pos (by decide)]
      cases hb : p.content_blocks.getD (uidx e.content_block_index) (.text "") <;>
        simp_all [ContentBlock.isThinking]

/-- Witness for C10: a text delta aimed at a ToolUse block leaves the
state unchanged. -/
theorem claim_c10_witness :
    evW.type = .contentBlockDelta ∧ evW.delta = some dW ∧
    uidx evW.content_block_index < pcW.content_blocks.length ∧
    dW.type = "text_delta" ∧
    (pcW.content_blocks.getD (uidx evW.content_block_index) (.text "")).isText = false ∧
    (process_event (fun _ => none) pcW evW).content_blocks = pcW.content_blocks ∧
    (process_event (fun _ => none) pcW evW).partial_jsons = pcW.partial_jsons ∧
    (process_event (fun _ => none) pcW evW).has_error = pcW.has_error := by
  have h := claim_c10_mismatched_delta_no_change (fun _ => none) pcW evW dW rfl rfl
    (Or.inr ⟨by decide, Or.inl ⟨rfl, by decide⟩⟩)
  exact ⟨rfl, rfl, by decide, rfl, by decide, h.1, h.2.1, h.2.2⟩

/-- Component-wise value of a fold of TokenUsage additions. -/
theorem foldl_tokenAdd (us : List TokenUsage) (a : TokenUsage) :
    us.foldl tokenAdd a =
      { input_tokens := a.input_tokens + (us.map (·.input_tokens)).sum
        output_tokens := a.output_tokens + (us.map (·.output_tokens)).sum
        cache_read_tokens := a.cache_read_tokens + (us.map (·.cache_read_tokens)).sum
        cache_creation_tokens :=
          a.cache_creation_tokens + (us.map (·.cache_creation_tokens)).sum } := by
  induction us generalizing a with
  | nil => simp
  | cons u us ih =>
    simp only [List.foldl_cons, ih, List.map_cons, List.sum_cons, tokenAdd]
    congr 1 <;> ring

/-- Adding a usage report with non-negative input, output and
cache-read fields cannot decrease the estimated cost. -/
theorem estimate_cost_mono_add (a u : TokenUsage)
    (hi : 0 ≤ u.input_tokens) (ho : 0 ≤ u.output_tokens)
    (hc : 0 ≤ u.cache_read_tokens) :
    estimate_cost a ≤ estimate_cost (tokenAdd a u) := by
  have hi' : (0 : ℚ) ≤ (u.input_tokens : ℚ) := by exact_mod_cast hi
  have ho' : (0 : ℚ) ≤ (u.output_tokens : ℚ) := by exact_mod_cast ho
  have hc' : (0 : ℚ) ≤ (u.cache_read_tokens : ℚ) := by exact_mod_cast hc
  simp only [estimate_cost, tokenAdd]
  push_cast
  ring_nf
  nlinarith [hi', ho', hc']

/-- C6: After any number of successful calls the client's accumulated
usage is the field-wise sum of the reported usages, and (with the
non-negative token counts the data model stipulates) the cost estimate
computed from the accumulated usage never decreases as one further
successful call accumulates usage. -/
theorem claim_c6_usage_sum_cost_monotone (us : List TokenUsage) (k : Nat) :
    (accumulate_usage us).input_tokens = (us.map (·.input_tokens)).sum ∧
    (accumulate_usage us).output_tokens = (us.map (·.output_tokens)).sum ∧
    (accumulate_usage us).cache_read_tokens = (us.map (·.cache_read_tokens)).sum ∧
    (accumulate_usage us).cache_creation_tokens = (us.map (·.cache_creation_tokens)).sum ∧
    ((∀ u ∈ us, 0 ≤ u.input_tokens ∧ 0 ≤ u.output_tokens ∧ 0 ≤ u.cache_read_tokens) →
      estimate_cost (accumulate_usage (us.take k)) ≤
        estimate_cost (accumulate_usage (us.take (k + 1)))) := by
  refine ⟨by simp [accumulate_usage, foldl_tokenAdd], by simp [accumulate_usage, foldl_tokenAdd],
    by simp [accumulate_usage, foldl_tokenAdd], by simp [accumulate_usage, foldl_tokenAdd], ?_⟩
  intro hpos
  rcases hk : us[k]? with _ | u
  · have : us.take (k + 1) = us.take k := by
      rw [List.take_succ, hk]
      simp
    rw [this]
  · have hmem : u ∈ us := by
      exact List.getElem?_mem hk
    have : us.take (k + 1) = us.take k ++ [u] := by
      rw [List.take_succ, hk]
      rfl
    rw [this]
    have : accumulate_usage (us.take k ++ [u]) = tokenAdd (accumulate_usage (us.take k)) u := by
      simp [accumulate_usage, List.foldl_append]
    rw [this]
    exact estimate_cost_mono_add _ _ (hpos u hmem).1 (hpos u hmem).2.1 (hpos u hmem).2.2

/-- Witness for C6 at the two concrete usage reports in `usW`. -/
theorem claim_c6_witness :
    (accumulate_usage usW).input_tokens = 6 ∧
    (accumulate_usage usW).output_tokens = 8 ∧
    (accumulate_usage usW).cache_read_tokens = 10 ∧
    (accumulate_usage usW).cache_creation_tokens = 12 ∧
    estimate_cost (accumulate_usage (usW.take 0)) ≤
      estimate_cost (accumulate_usage (usW.take 1)) := by
  have h := claim_c6_usage_sum_cost_monotone usW 0
  exact ⟨by decide, by decide, by decide, by decide, h.2.2.2.2 (by decide)⟩

/-- The extraction loop on a text without any regex match returns no
blocks and leaves the text as remainder, at any fuel. -/
theorem extractAuxFuel_of_none (s : List Char) (h : findBlockSplit s = none)
    (f : Nat) : extractAuxFuel f s = ([], s) := by
  cases f <;> simp [extractAuxFuel, h]

/-- A text with a regex match yields at least one extracted block. -/
theorem extractCore_fst_ne_nil (l : List Char)
    (t : List Char × List Char × List Char) (h : findBlockSplit l = some t) :
    (extractCore l).1 ≠ [] := by
  cases l with
  | nil =>
    rw [show findBlockSplit ([] : List Char) = none from by decide] at h
    cases h
  | cons c cs =>
    rw [extractCore]
    simp [extractAuxFuel, h]

/-- C9: Directive extraction returns the empty list when the text has
no open/close marker pair (surrounding text is not returned at all);
when a pair matches and non-empty text follows the last close marker,
the returned list ends with one extra block with empty code carrying
exactly that trailing text. -/
theorem claim_c9_extraction_shape (s : String) :
    (findBlockSplit s.data = none → extract_idascript_blocks s = []) ∧
    (findBlockSplit s.data ≠ none → (extractCore s.data).2 ≠ [] →
      (extract_idascript_blocks s).getLast? =
        some { code := "", preceding_text := String.mk (extractCore s.data).2 }) := by
  constructor
  · intro h
    simp [extract_idascript_blocks, extractCore, extractAuxFuel_of_none _ h]
  · intro h hrem
    rcases hsplit : findBlockSplit s.data with _ | t
    · exact absurd hsplit h
    · have h1 : (extractCore s.data).1 ≠ [] := extractCore_fst_ne_nil _ _ hsplit
      simp only [extract_idascript_blocks, if_neg h1, if_pos hrem]
      exact List.getLast?_concat _

/-- Witness for C9: a marker-free text extracts to the empty list, and
a text with one directive and a trailing "tail" ends with the code-less
trailing block. -/
theorem claim_c9_witness :
    extract_idascript_blocks "plain text" = [] ∧
    (extract_idascript_blocks "a<idascript>x</idascript>tail").getLast? =
      some { code := "", preceding_text :=
             String.mk (extractCore ("a<idascript>x</idascript>tail").data).2 } := by
  exact ⟨(claim_c9_extraction_shape "plain text").1 (by decide),
    (claim_c9_extraction_shape "a<idascript>x</idascript>tail").2 (by decide) (by decide)⟩

/-- Splitting a concatenation into lines: the complete lines of the
first part, then the lines formed by its remainder joined with the
second part. -/
theorem splitLines_append (a b : List Char) :
    splitLines (a ++ b) =
      ((splitLines a).1 ++ (splitLines ((splitLines a).2 ++ b)).1,
       (splitLines ((splitLines a).2 ++ b)).2) := by
  induction a with
  | nil => simp [splitLines]
  | cons c cs ih =>
    by_cases hc : c = '\n'
    · subst hc
      simp [splitLines, ih]
    · rcases h1 : splitLines cs with ⟨ls, r⟩
      simp only [h1] at ih
      cases ls with
      | nil =>
        rcases h2 : splitLines (r ++ b) with ⟨ls2, r2⟩
        simp only [h2, List.nil_append] at ih
        cases ls2 <;>
          simp only [List.cons_append, splitLines, if_neg hc, h1, h2, List.append_eq,
            List.nil_append] <;>
          rw [ih]
      | cons l ls' =>
        simp only [List.cons_append, splitLines, if_neg hc, h1, List.append_eq,
          List.nil_append]
        rw [ih]
        rfl

/-- feed() distributes over chunk concatenation: feeding two chunks in
sequence equals feeding their concatenation. -/
theorem feed_feed (parse : List Char → Option Json) (st : SPState)
    (a b : List Char) :
    StreamingParser.feed parse (StreamingParser.feed parse st a) b =
      StreamingParser.feed parse st (a ++ b) := by
  simp [StreamingParser.feed, ← List.append_assoc, splitLines_append (st.buffer ++ a) b,
    List.foldl_append]

/-- C4: Feeding any byte string split at any position k as two feed()
calls followed by finish() leaves the parser in exactly the same state
(hence with the same assembled response) as one feed() of the whole
string followed by finish(). -/
theorem claim_c4_chunk_boundary_invariance (parse : List Char → Option Json)
    (data : List Char) (k : Nat) :
    StreamingParser.finish parse
        (StreamingParser.feed parse
          (StreamingParser.feed parse initParser (data.take k)) (data.drop k)) =
      StreamingParser.finish parse (StreamingParser.feed parse initParser data) ∧
    StreamingParser.get_response
        (StreamingParser.finish parse
          (StreamingParser.feed parse
            (StreamingParser.feed parse initParser (data.take k)) (data.drop k))) =
      StreamingParser.get_response
        (StreamingParser.finish parse (StreamingParser.feed parse initParser data)) := by
  have h : StreamingParser.feed parse
      (StreamingParser.feed parse initParser (data.take k)) (data.drop k) =
      StreamingParser.feed parse initParser data := by
    rw [feed_feed, List.take_append_drop]
  exact ⟨by rw [h], by rw [h]⟩

/-- process_event never touches the callback trace. -/
theorem process_event_events (parse : List Char → Option Json)
    (p : ParserCore) (e : StreamEvent) :
    (process_event parse p e).events = p.events := by
  unfold process_event
  rcases e with ⟨ty, msg, cb, d, sr, us, err, idx⟩
  cases ty <;> dsimp only <;> (repeat' split) <;> rfl

/-- The response becomes (or stays) present exactly through a
MessageStart event carrying a message payload. -/
theorem process_event_response_isSome (parse : List Char → Option Json)
    (p : ParserCore) (e : StreamEvent) :
    ((process_event parse p e).response.isSome = true) ↔
      (p.response.isSome = true ∨ (e.type = .messageStart ∧ e.message.isSome = true)) := by
  unfold process_event
  rcases e with ⟨ty, msg, cb, d, sr, us, err, idx⟩
  cases ty <;> dsimp only <;> (repeat' split) <;> simp_all

/-- The completion flag becomes (or stays) set exactly through a
MessageStop event. -/
theorem process_event_complete (parse : List Char → Option Json)
    (p : ParserCore) (e : StreamEvent) :
    ((process_event parse p e).complete = true) ↔
      (p.complete = true ∨ e.type = .messageStop) := by
  unfold process_event
  rcases e with ⟨ty, msg, cb, d, sr, us, err, idx⟩
  cases ty <;> dsimp only <;> (repeat' split) <;> simp_all

/-- process_line preserves the two trace invariants. -/
theorem process_line_inv (parse : List Char → Option Json) (p : ParserCore)
    (line : List Char)
    (h1 : p.response.isSome = true ↔
      ∃ e ∈ p.events, e.type = .messageStart ∧ e.message.isSome = true)
    (h2 : p.complete = true ↔ ∃ e ∈ p.events, e.type = .messageStop) :
    ((process_line parse p line).response.isSome = true ↔
      ∃ e ∈ (process_line parse p line).events,
        e.type = .messageStart ∧ e.message.isSome = true) ∧
    ((process_line parse p line).complete = true ↔
      ∃ e ∈ (process_line parse p line).events, e.type = .messageStop) := by
  have step : ∀ event : StreamEvent,
      (((process_event parse p event).response.isSome = true) ↔
        ∃ e ∈ (process_event parse p event).events ++ [event],
          e.type = .messageStart ∧ e.message.isSome = true) ∧
      (((process_event parse p event).complete = true) ↔
        ∃ e ∈ (process_event parse p event).events ++ [event], e.type = .messageStop) := by
    intro event
    constructor
    · rw [process_event_response_isSome parse p event, process_event_events, h1]
      simp only [List.mem_append, List.mem_singleton]
      constructor
      · rintro (⟨e, he, hp⟩ | hev)
        · exact ⟨e, Or.inl he, hp⟩
        · exact ⟨event, Or.inr rfl, hev⟩
      · rintro ⟨e, he | rfl, hp⟩
        · exact Or.inl ⟨e, he, hp⟩
        · exact Or.inr hp
    · rw [process_event_complete parse p event, process_event_events, h2]
      simp only [List.mem_append, List.mem_singleton]
      constructor
      · rintro (⟨e, he, hp⟩ | hev)
        · exact ⟨e, Or.inl he, hp⟩
        · exact ⟨event, Or.inr rfl, hev⟩
      · rintro ⟨e, he | rfl, hp⟩
        · exact Or.inl ⟨e, he, hp⟩
        · exact Or.inr hp
  unfold process_line
  dsimp only
  repeat' split
  all_goals first
    | exact ⟨h1, h2⟩
    | (rename_i event _; exact step event)

/-- The feed-loop body preserves the two trace invariants. -/
theorem feedLine_inv (parse : List Char → Option Json) (p : ParserCore)
    (line : List Char)
    (h1 : p.response.isSome = true ↔
      ∃ e ∈ p.events, e.type = .messageStart ∧ e.message.isSome = true)
    (h2 : p.complete = true ↔ ∃ e ∈ p.events, e.type = .messageStop) :
    ((feedLine parse p line).response.isSome = true ↔
      ∃ e ∈ (feedLine parse p line).events,
        e.type = .messageStart ∧ e.message.isSome = true) ∧
    ((feedLine parse p line).complete = true ↔
      ∃ e ∈ (feedLine parse p line).events, e.type = .messageStop) := by
  unfold feedLine
  dsimp only
  split
  · exact ⟨h1, h2⟩
  · exact process_line_inv parse p _ h1 h2

/-- Folding the feed-loop body over any line list preserves the two
trace invariants. -/
theorem foldl_feedLine_inv (parse : List Char → Option Json)
    (lines : List (List Char)) (p : ParserCore)
    (h1 : p.response.isSome = true ↔
      ∃ e ∈ p.events, e.type = .messageStart ∧ e.message.isSome = true)
    (h2 : p.complete = true ↔ ∃ e ∈ p.events, e.type = .messageStop) :
    ((lines.foldl (feedLine parse) p).response.isSome = true ↔
      ∃ e ∈ (lines.foldl (feedLine parse) p).events,
        e.type = .messageStart ∧ e.message.isSome = true) ∧
    ((lines.foldl (feedLine parse) p).complete = true ↔
      ∃ e ∈ (lines.foldl (feedLine parse) p).events, e.type = .messageStop) := by
  induction lines generalizing p with
  | nil => exact ⟨h1, h2⟩
  | cons l ls ih =>
    simp only [List.foldl_cons]
    have h := feedLine_inv parse p l h1 h2
    exact ih _ h.1 h.2

/-- C1 (amended): after any feed()/finish() run from a fresh parser,
get_response() returns some response iff a MessageStart event carrying a
message payload was observed (the response skeleton is installed at
MessageStart; MessageStop only freezes the content), and is_complete()
is true iff a MessageStop event was observed. -/
theorem claim_c1_response_iff_message_start (parse : List Char → Option Json)
    (chunks : List (List Char)) :
    ((StreamingParser.get_response (runStream parse chunks)).isSome = true ↔
      ∃ e ∈ (runStream parse chunks).core.events,
        e.type = .messageStart ∧ e.message.isSome = true) ∧
    (StreamingParser.is_complete (runStream parse chunks) = true ↔
      ∃ e ∈ (runStream parse chunks).core.events, e.type = .messageStop) := by
  have base : ∀ st : SPState,
      (st.core.response.isSome = true ↔
        ∃ e ∈ st.core.events, e.type = .messageStart ∧ e.message.isSome = true) →
      (st.core.complete = true ↔ ∃ e ∈ st.core.events, e.type = .messageStop) →
      ∀ cs : List (List Char),
        (((cs.foldl (StreamingParser.feed parse) st).core.response.isSome = true ↔
          ∃ e ∈ (cs.foldl (StreamingParser.feed parse) st).core.events,
            e.type = .messageStart ∧ e.message.isSome = true) ∧
        ((cs.foldl (StreamingParser.feed parse) st).core.complete = true ↔
          ∃ e ∈ (cs.foldl (StreamingParser.feed parse) st).core.events,
            e.type = .messageStop)) := by
    intro st hs1 hs2 cs
    induction cs generalizing st with
    | nil => exact ⟨hs1, hs2⟩
    | cons c cs ih =>
      simp only [List.foldl_cons]
      have h := foldl_feedLine_inv parse (splitLines (st.buffer ++ c)).1 st.core hs1 hs2
      exact ih _ h.1 h.2
  have hfold := base initParser (by simp [initParser]) (by simp [initParser]) chunks
  unfold runStream StreamingParser.finish
  split
  · exact hfold
  · exact process_line_inv parse _ _ hfold.1 hfold.2

/-- Counterexample to C1 as stated: a stream consisting of a single
message_stop data line.  After finish(), the MessageStop event was
observed (it is the whole callback trace) yet get_response() returns
none, because no MessageStart installed a response skeleton. -/
theorem claim_c1_counterexample :
    (runStream jsonParseModel [msgStopChunk]).core.events.map (fun e => e.type) =
      [.messageStop] ∧
    StreamingParser.get_response (runStream jsonParseModel [msgStopChunk]) = none := by
  exact ⟨rfl, rfl⟩

/-- C2 (amended): when connected, process_message clears the
cancellation flag on entry (both the network and the CLI path), so a
cancellation requested before the call has no effect whatsoever on the
run: the outcome is identical to a run with no prior cancellation, and
in particular transport calls proceed normally. -/
theorem claim_c2_cancel_flag_cleared_on_entry (env : CoreEnv) (st : CoreState)
    (input : String) (h : is_connected st = true) :
    process_message env { st with cancelled := true } input =
      process_message env { st with cancelled := false } input := by
  have h1 : is_connected { st with cancelled := true } = true := h
  have h2 : is_connected { st with cancelled := false } = true := h
  simp [process_message, h1, h2, process_message_cli]

/-- Witness for C2 (amended) at the concrete connected state
`stIdle`. -/
theorem claim_c2_witness :
    is_connected stIdle = true ∧
    process_message envH { stIdle with cancelled := true } "go" =
      process_message envH { stIdle with cancelled := false } "go" :=
  ⟨rfl, claim_c2_cancel_flag_cleared_on_entry envH stIdle "go" rfl⟩

/-- Counterexample to C2 as stated: with the cancellation flag set
before the call, process_message on a connected network-mode core
returns a successful (not cancelled) result and performs one transport
call, because it resets the flag on entry. -/
theorem claim_c2_counterexample :
    stIdleCancelled.cancelled = true ∧
    (process_message envH stIdleCancelled "go").2.cancelled = false ∧
    (process_message envH stIdleCancelled "go").2.success = true ∧
    (process_message envH stIdleCancelled "go").1.transport_calls = 1 := by
  exact ⟨rfl, rfl, rfl, rfl⟩

/-- execute_script in closed form: the fed-back output and the code
appended to the execution trace. -/
theorem execute_script_eq (env : CoreEnv) (st : CoreState) (code : String) :
    execute_script env st code =
      (scriptOutput env code,
       { st with script_codes := st.script_codes ++ [code] }) := by
  unfold execute_script scriptOutput
  dsimp only
  split <;> rfl

/-- process_scripts in closed form: it runs exactly the non-empty
directive codes, in order, and records them in the execution trace. -/
theorem process_scripts_spec (env : CoreEnv) (st : CoreState) (text : String) :
    process_scripts env st text =
      (nonemptyCodes text,
       (nonemptyCodes text).map (scriptOutput env),
       { st with script_codes := st.script_codes ++ nonemptyCodes text }) := by
  have gen : ∀ (bs : List ScriptBlock) (s o : List String) (st' : CoreState),
      bs.foldl (scriptsStep env) (s, o, st') =
      (s ++ (bs.filter (fun b => b.code ≠ "")).map (·.code),
       o ++ ((bs.filter (fun b => b.code ≠ "")).map (·.code)).map (scriptOutput env),
       { st' with script_codes :=
           st'.script_codes ++ (bs.filter (fun b => b.code ≠ "")).map (·.code) }) := by
    intro bs
    induction bs with
    | nil => intro s o st'; simp
    | cons b bs ih =>
      intro s o st'
      rw [List.foldl_cons]
      by_cases hb : b.code = ""
      · rw [show scriptsStep env (s, o, st') b = (s, o, st') from by
          simp [scriptsStep, hb]]
        rw [ih]
        simp [hb]
      · rw [show scriptsStep env (s, o, st') b =
            (s ++ [b.code], o ++ [scriptOutput env b.code],
             { st' with script_codes := st'.script_codes ++ [b.code] }) from by
          simp [scriptsStep, hb, execute_script_eq]]
        rw [ih]
        simp [hb, List.append_assoc]
  unfold process_scripts nonemptyCodes
  rw [gen]
  simp

/-- A reply with a non-empty executable directive contains the open
marker. -/
theorem has_blocks_of_nonemptyCodes (text : String)
    (h : nonemptyCodes text ≠ []) : has_idascript_blocks text = true := by
  have hex : extract_idascript_blocks text ≠ [] := by
    intro hnil
    exact h (by simp [nonemptyCodes, hnil])
  have hcore : (extractCore text.data).1 ≠ [] := by
    intro hnil
    exact hex (by simp [extract_idascript_blocks, hnil])
  rcases hsplit : findBlockSplit text.data with _ | t
  · exact absurd (by simp [extractCore, extractAuxFuel_of_none _ hsplit]) hcore
  · unfold has_idascript_blocks
    unfold findBlockSplit at hsplit
    rcases hfs : findSubstr openTag text.data with _ | i
    · rw [hfs] at hsplit
      cases hsplit
    · simp

/-- One network turn whose reply carries directives: the loop executes
them, appends the feedback message and continues with one unit less
budget. -/
theorem netLoop_succ_step (env : CoreEnv) (r : Nat → CreateMessageResponse)
    (htr : ∀ k req, env.transport k req = some (r k))
    (hsc : ∀ k, nonemptyCodes ((r k).get_text) ≠ [])
    (fuel : Nat) (turn : Int) (full : String) (st : CoreState)
    (hcond : turn < env.options.max_turns) (hc : st.cancelled = false) :
    netLoop env (fuel + 1) turn full st =
      netLoop env fuel (turn + 1) (full ++ (r st.transport_calls).get_text)
        (stepState env r st) := by
  have hhas := has_blocks_of_nonemptyCodes _ (hsc st.transport_calls)
  have hne := hsc st.transport_calls
  simp only [netLoop]
  rw [if_pos ⟨hcond, hc⟩]
  simp only [htr, process_scripts_spec, hhas, hne, stepState, ne_eq,
    not_false_iff, if_true, ite_true, not_true, ite_false]

/-- The network loop under an all-directives transport: it spends the
whole remaining budget, makes one transport call and executes one batch
of directives per turn (the final turn included), then reports success
with the accumulated stripped answer. -/
theorem netLoop_all_directives (env : CoreEnv) (r : Nat → CreateMessageResponse)
    (htr : ∀ k req, env.transport k req = some (r k))
    (hsc : ∀ k, nonemptyCodes ((r k).get_text) ≠ []) :
    ∀ (fuel : Nat) (turn : Int) (full : String) (st : CoreState),
      st.cancelled = false →
      turn + (fuel : Int) = env.options.max_turns →
      (netLoop env fuel turn full st).1.transport_calls = st.transport_calls + fuel ∧
      (netLoop env fuel turn full st).1.script_codes =
        st.script_codes ++ concatCodes r st.transport_calls fuel ∧
      (netLoop env fuel turn full st).2.success = true ∧
      (netLoop env fuel turn full st).2.turns_used = turn + fuel ∧
      (netLoop env fuel turn full st).2.response =
        strip_idascript_blocks (full ++ concatTexts r st.transport_calls fuel) := by
  intro fuel
  induction fuel with
  | zero =>
    intro turn full st hc hmax
    simp [netLoop, netExit, concatCodes, concatTexts]
  | succ fuel ih =>
    intro turn full st hc hmax
    have hcond : turn < env.options.max_turns := by omega
    rw [netLoop_succ_step env r htr hsc fuel turn full st hcond hc]
    have hc' : (stepState env r st).cancelled = false := hc
    have hmax' : (turn + 1) + (fuel : Int) = env.options.max_turns := by
      push_cast at hmax
      omega
    obtain ⟨ih1, ih2, ih3, ih4, ih5⟩ :=
      ih (turn + 1) (full ++ (r st.transport_calls).get_text) (stepState env r st) hc' hmax'
    refine ⟨?_, ?_, ih3, ?_, ?_⟩
    · rw [ih1]
      show st.transport_calls + 1 + fuel = st.transport_calls + (fuel + 1)
      omega
    · rw [ih2]
      show st.script_codes ++ nonemptyCodes ((r st.transport_calls).get_text) ++
          concatCodes r (st.transport_calls + 1) fuel =
        st.script_codes ++ concatCodes r st.transport_calls (fuel + 1)
      rw [concatCodes, List.append_assoc]
    · rw [ih4]
      push_cast
      ring
    · rw [ih5]
      show strip_idascript_blocks ((full ++ (r st.transport_calls).get_text) ++
          concatTexts r (st.transport_calls + 1) fuel) =
        strip_idascript_blocks (full ++ concatTexts r st.transport_calls (fuel + 1))
      rw [concatTexts, ← String.append_assoc]

/-- C3 (amended): when the turn budget is exhausted while every reply
(the final one included) still carries script directives,
process_message executes the directives of every turn including the
final one (one script-execution call per non-empty directive), performs
exactly max_turns transport calls and no more, and returns the
accumulated answer as its result. -/
theorem claim_c3_budget_exhaustion_still_executes (env : CoreEnv)
    (st : CoreState) (input : String) (r : Nat → CreateMessageResponse)
    (hconn : is_connected st = true) (hmode : st.use_cli_mode = false)
    (htr : ∀ k req, env.transport k req = some (r k))
    (hsc : ∀ k, nonemptyCodes ((r k).get_text) ≠ [])
    (hpos : 0 ≤ env.options.max_turns) :
    (process_message env st input).1.transport_calls =
      st.transport_calls + env.options.max_turns.toNat ∧
    (process_message env st input).1.script_codes =
      st.script_codes ++ concatCodes r st.transport_calls env.options.max_turns.toNat ∧
    (process_message env st input).2.success = true ∧
    (process_message env st input).2.turns_used = env.options.max_turns ∧
    (process_message env st input).2.response =
      strip_idascript_blocks (concatTexts r st.transport_calls
        env.options.max_turns.toNat) := by
  unfold process_message
  rw [hconn]
  rw [if_neg (by simp)]
  rw [if_neg (by simp [hmode])]
  have hmax : (0 : Int) + (env.options.max_turns.toNat : Int) = env.options.max_turns := by
    rw [Int.toNat_of_nonneg hpos]
    ring
  obtain ⟨h1, h2, h3, h4, h5⟩ :=
    netLoop_all_directives env r htr hsc env.options.max_turns.toNat 0 ""
      { st with
        chat_state := ChatState.processing
        cancelled := false
        conversation := st.conversation ++ [ClaudeMessage.user input] }
      rfl hmax
  refine ⟨h1, h2, h3, ?_, ?_⟩
  · rw [h4]
    omega
  · rw [h5]
    congr 1

/-- Counterexample to C3 as stated: with a one-turn budget and a reply
carrying the directive print(1), the run reaches the turn budget with
the directive still present in the final reply, yet the
script-execution capability is invoked on it (the execution trace is
["print(1)"], not empty). -/
theorem claim_c3_counterexample :
    (process_message envD1 stIdle "go").2.turns_used = envD1.options.max_turns ∧
    nonemptyCodes respD.get_text ≠ [] ∧
    (process_message envD1 stIdle "go").1.script_codes = ["print(1)"] ∧
    (process_message envD1 stIdle "go").2.success = true := by
  exact ⟨rfl, by decide, rfl, rfl⟩

/-- Witness for C3 (amended) at a two-turn budget with the constant
directive-carrying reply. -/
theorem claim_c3_witness :
    (process_message envD2 stIdle "go").1.transport_calls =
      stIdle.transport_calls + envD2.options.max_turns.toNat ∧
    (process_message envD2 stIdle "go").1.script_codes =
      stIdle.script_codes ++ concatCodes (fun _ => respD) stIdle.transport_calls
        envD2.options.max_turns.toNat ∧
    (process_message envD2 stIdle "go").2.success = true ∧
    (process_message envD2 stIdle "go").2.turns_used = envD2.options.max_turns ∧
    (process_message envD2 stIdle "go").2.response =
      strip_idascript_blocks (concatTexts (fun _ => respD) stIdle.transport_calls
        envD2.options.max_turns.toNat) := by
  have hD : nonemptyCodes respD.get_text ≠ [] := by decide
  exact claim_c3_budget_exhaustion_still_executes envD2 stIdle "go" (fun _ => respD)
    rfl rfl (fun _ _ => rfl) (fun _ => hD) (by decide)

end IdaChat
